import Mathlib

/-!
Verification of the GPPS (General Purpose Permanent Storage) contract
(`src/gpps.cpp`) against its specification.

The contract keeps a single `nodes` table, scoped by an owner account name;
within a scope, rows are keyed by a 64-bit `id` and carry a byte vector
`data`.  We embed the table as a total function from (owner, id) to an
optional byte list, absent rows mapping to `none`.  The actions `set` and
`del` abort the transaction on a failed `check`, which we model with
`Except`: a returned error leaves the caller's store untouched.
-/

namespace GPPS

/-- Owner account names (`eosio::name` is a 64-bit value; only equality of
owners is ever used by the contract, so we embed them as naturals). -/
abbrev Name := Nat

/-- Node ids (`uint64_t id`). -/
abbrev Id := Nat

/-- Node payloads (`vector<unsigned char> data`); each byte is a natural. -/
abbrev Bytes := List Nat

/-- The state of the `nodes` multi-index table across all scopes: a scope
(owner) and a primary key (id) map to the stored `data` of that node, or to
`none` when no such row exists. -/
def Store := Name → Id → Option Bytes

/-- The table with no rows in any scope. -/
def emptyStore : Store := fun _ _ => none

/-- Point update of the table: `emplace`/`modify` write `some data` at one
(owner, id) slot, `erase` writes `none`; every other row is untouched. -/
def update (s : Store) (owner : Name) (id : Id) (v : Option Bytes) : Store :=
  fun o i => if o = owner ∧ i = id then v else s o i

/-- The two failure messages the contract can raise via `check`:
`"Immutable scope."` and `"Node does not exist."`. -/
inductive Err where
  | immutableScope
  | nodeNotFound
deriving DecidableEq, Repr

/-- `gpps::immutable` (gpps.cpp:155-164): a scope is immutable when its
node 0 exists and its data has size 2 with bytes 222 (0xDE) and 173 (0xAD). -/
def immutable (s : Store) (owner : Name) : Bool :=
  match s owner 0 with
  | none => false
  | some d => d.length == 2 && d.getD 0 0 == 222 && d.getD 1 0 == 173

/-- `gpps::set` (gpps.cpp:119-135): if no row `(owner, id)` exists, emplace
a new node with the given data (no immutability check on this path);
otherwise `check(!immutable(owner))` and modify the row's data in place. -/
def set (s : Store) (owner : Name) (id : Id) (data : Bytes) : Except Err Store :=
  match s owner id with
  | none => .ok (update s owner id (some data))
  | some _ =>
    if immutable s owner then .error .immutableScope
    else .ok (update s owner id (some data))

/-- `gpps::del` (gpps.cpp:141-148): `check` that the row `(owner, id)`
exists ("Node does not exist."), then `check(!immutable(owner))`
("Immutable scope."), then erase the row. -/
def del (s : Store) (owner : Name) (id : Id) : Except Err Store :=
  match s owner id with
  | none => .error .nodeNotFound
  | some _ =>
    if immutable s owner then .error .immutableScope
    else .ok (update s owner id none)

/-- Modelled from the spec: `read` is not an action of the contract — data
is retrieved by external table queries (`cleos get table`, per the source
comments) — so we model the missing query surface from the spec's words: a
pure, side-effect-free lookup returning the stored bytes, or not-found. -/
def read (s : Store) (owner : Name) (id : Id) : Option Bytes := s owner id

/-- A mutating invocation of the contract: one `set` or one `del` action. -/
inductive Op where
  | setOp (owner : Name) (id : Id) (data : Bytes)
  | delOp (owner : Name) (id : Id)

/-- The scope an operation acts on. -/
def Op.owner : Op → Name
  | .setOp o _ _ => o
  | .delOp o _ => o

/-- Host transaction semantics: run one action against the table; a failed
`check` aborts the transaction, leaving the table exactly as it was. -/
def applyOp (s : Store) : Op → Store
  | .setOp o i d =>
    match set s o i d with
    | .ok s2 => s2
    | .error _ => s
  | .delOp o i =>
    match del s o i with
    | .ok s2 => s2
    | .error _ => s

/-- Run a sequence of actions in order. -/
def applyAll (s : Store) (ops : List Op) : Store := ops.foldl applyOp s

/-- A concrete reachable store whose scope 1 has been locked by writing the
sentinel `{0xDE, 0xAD}` to its node 0. -/
def lockedEx : Store := applyOp emptyStore (.setOp 1 0 [222, 173])

/-! ### Basic lemmas about the embedding -/

theorem update_self (s : Store) (owner : Name) (id : Id) (v : Option Bytes) :
    update s owner id v owner id = v := by
  simp [update]

theorem update_other (s : Store) (owner : Name) (id : Id) (v : Option Bytes)
    (o : Name) (i : Id) (h : ¬(o = owner ∧ i = id)) :
    update s owner id v o i = s o i := by
  simp [update, h]

/-- The immutability predicate, characterised: a scope is immutable exactly
when its node 0 holds the two-byte sentinel `[222, 173]`. -/
theorem immutable_iff (s : Store) (N : Name) :
    immutable s N = true ↔ s N 0 = some [222, 173] := by
  unfold immutable
  cases h : s N 0 with
  | none => simp
  | some d =>
    simp only [Option.some.injEq]
    constructor
    · intro hd
      match d with
      | [] => simp at hd
      | [a] => simp at hd
      | a :: b :: c :: t => simp [List.length] at hd
      | [a, b] =>
        simp [List.getD] at hd
        simp [hd.1, hd.2]
    · intro hd
      subst hd
      rfl

theorem set_ok_at (s s2 : Store) (n : Name) (i : Id) (p : Bytes)
    (h : set s n i p = .ok s2) : s2 n i = some p := by
  unfold set at h
  cases hsi : s n i with
  | none =>
    rw [hsi] at h
    cases h
    exact update_self s n i (some p)
  | some b =>
    rw [hsi] at h
    by_cases himm : immutable s n
    · simp [himm] at h
    · simp [himm] at h
      rw [← h]
      exact update_self s n i (some p)

/-- Frame lemma: an action only ever touches rows of its own scope. -/
theorem applyOp_other_scope (s : Store) (op : Op) (o : Name)
    (ho : o ≠ op.owner) (j : Id) : applyOp s op o j = s o j := by
  cases op with
  | setOp n i d =>
    simp only [Op.owner] at ho
    cases hsi : s n i with
    | none =>
      simp only [applyOp, set, hsi]
      exact update_other s n i (some d) o j (fun hc => ho hc.1)
    | some b =>
      by_cases himm : immutable s n = true
      · simp [applyOp, set, hsi, himm]
      · simp only [applyOp, set, hsi, himm, if_false]
        exact update_other s n i (some d) o j (fun hc => ho hc.1)
  | delOp n i =>
    simp only [Op.owner] at ho
    cases hsi : s n i with
    | none => simp [applyOp, del, hsi]
    | some b =>
      by_cases himm : immutable s n = true
      · simp [applyOp, del, hsi, himm]
      · simp only [applyOp, del, hsi, himm, if_false]
        exact update_other s n i none o j (fun hc => ho hc.1)

/-- Immutability of a scope only depends on that scope's node 0. -/
theorem immutable_congr (s s2 : Store) (n : Name) (h : s2 n 0 = s n 0) :
    immutable s2 n = immutable s n := by
  unfold immutable
  rw [h]

/-- One action never makes an immutable scope mutable again: writes to rows
of other scopes do not touch node 0 of `N`; within `N`, node 0 exists (it
holds the sentinel), so `set` on it takes the modify path and `del` finds
it, and both are rejected by the immutability check. -/
theorem immutable_applyOp (s : Store) (N : Name)
    (h : immutable s N = true) (op : Op) :
    immutable (applyOp s op) N = true := by
  rw [immutable_iff] at h ⊢
  cases op with
  | setOp o i d =>
    cases hsi : s o i with
    | none =>
      simp only [applyOp, set, hsi]
      rw [update_other]
      · exact h
      · rintro ⟨ho, hi⟩
        subst ho; subst hi
        rw [h] at hsi
        cases hsi
    | some b =>
      by_cases himm : immutable s o = true
      · simp [applyOp, set, hsi, himm, h]
      · simp only [applyOp, set, hsi, himm, Bool.false_eq_true, if_false]
        rw [update_other]
        · exact h
        · rintro ⟨ho, _⟩
          subst ho
          rw [immutable_iff] at himm
          exact himm h
  | delOp o i =>
    cases hsi : s o i with
    | none => simp only [applyOp, del, hsi]; exact h
    | some b =>
      by_cases himm : immutable s o = true
      · simp [applyOp, del, hsi, himm, h]
      · simp only [applyOp, del, hsi, himm, Bool.false_eq_true, if_false]
        rw [update_other]
        · exact h
        · rintro ⟨ho, _⟩
          subst ho
          rw [immutable_iff] at himm
          exact himm h

/-- No sequence of actions unlocks an immutable scope. -/
theorem immutable_applyAll (s : Store) (N : Name)
    (h : immutable s N = true) (ops : List Op) :
    immutable (applyAll s ops) N = true := by
  induction ops generalizing s with
  | nil => exact h
  | cons op ops ih => exact ih (applyOp s op) (immutable_applyOp s N h op)

/-! ### Claims -/

/-- Claim C1, counterexample: in a locked scope (node 0 holds the sentinel),
a write to a node id that does not yet exist does not fail with
`ImmutableScope` — it succeeds and creates the node, so the store changes.
This refutes the claim that every subsequent write against an immutable
scope fails. -/
theorem c1_counterexample :
    immutable lockedEx 1 = true ∧
    set lockedEx 1 1 [0] = .ok (update lockedEx 1 1 (some [0])) ∧
    read (applyOp lockedEx (.setOp 1 1 [0])) 1 1 = some [0] :=
  ⟨by decide, rfl, by decide⟩

/-- Claim C1 (amended): once scope `N` holds the sentinel at node 0, every
subsequent write to an EXISTING node of `N` fails with `ImmutableScope` and
leaves the store unchanged, and every subsequent delete in `N` fails
(`ImmutableScope` when the node exists, `NotFound` otherwise) and leaves
the store unchanged. Writes that create a brand-new node id are the one
exception: they are not guarded (see C2). -/
theorem c1_immutable_blocks_existing (s : Store) (N : Name) (i : Id) (d : Bytes)
    (h : immutable s N = true) :
    (s N i ≠ none →
      set s N i d = .error .immutableScope ∧ applyOp s (.setOp N i d) = s) ∧
    (s N i ≠ none → del s N i = .error .immutableScope) ∧
    (s N i = none → del s N i = .error .nodeNotFound) ∧
    applyOp s (.delOp N i) = s := by
  refine ⟨?_, ?_, ?_, ?_⟩
  · intro hex
    cases hsi : s N i with
    | none => exact absurd hsi hex
    | some b => exact ⟨by simp [set, hsi, h], by simp [applyOp, set, hsi, h]⟩
  · intro hex
    cases hsi : s N i with
    | none => exact absurd hsi hex
    | some b => simp [del, hsi, h]
  · intro hne
    simp [del, hne]
  · cases hsi : s N i with
    | none => simp [applyOp, del, hsi]
    | some b => simp [applyOp, del, hsi, h]

/-- Witness for C1 (amended), on the concrete locked store. -/
theorem c1_immutable_blocks_existing_witness :
    set lockedEx 1 0 [5] = .error .immutableScope ∧
    del lockedEx 1 0 = .error .immutableScope ∧
    del lockedEx 1 7 = .error .nodeNotFound := by
  have h0 := c1_immutable_blocks_existing lockedEx 1 0 [5] (by decide)
  have h7 := c1_immutable_blocks_existing lockedEx 1 7 [5] (by decide)
  exact ⟨(h0.1 (by decide)).1, h0.2.1 (by decide), h7.2.2.1 (by decide)⟩

/-- Claim C2: in the reference behaviour, a write to an id with no existing
node in an immutable scope succeeds, creating exactly that node with the
given payload — the immutability check guards only the update path. -/
theorem c2_create_in_immutable_scope (s : Store) (N : Name) (i : Id) (p : Bytes)
    (h : immutable s N = true) (hne : s N i = none) :
    set s N i p = .ok (update s N i (some p)) ∧
    update s N i (some p) N i = some p ∧
    ∀ o j, ¬(o = N ∧ j = i) → update s N i (some p) o j = s o j :=
  ⟨by simp [set, hne], update_self s N i (some p),
    fun o j hoj => update_other s N i (some p) o j hoj⟩

/-- Witness for C2, on the concrete locked store. -/
theorem c2_create_in_immutable_scope_witness :
    set lockedEx 1 2 [9] = .ok (update lockedEx 1 2 (some [9])) ∧
    update lockedEx 1 2 (some [9]) 1 2 = some [9] := by
  have hc := c2_create_in_immutable_scope lockedEx 1 2 [9] (by decide) (by decide)
  exact ⟨hc.1, hc.2.1⟩

/-- Claim C3: `immutable` returns true iff node 0 of the scope exists and
its payload is exactly the two bytes `[222, 173]` (`{0xDE, 0xAD}`); in
every other case — node 0 absent, wrong length, or differing bytes — it
returns false. -/
theorem c3_isImmutable_characterisation (s : Store) (N : Name) :
    immutable s N = true ↔ s N 0 = some [222, 173] :=
  immutable_iff s N

/-- Claim C4: immutability is irreversible — from any state in which scope
`N` is immutable, after any further sequence of `set` and `del` actions
(successful or failed, on any scope) `N` is still immutable. -/
theorem c4_immutability_irreversible (s : Store) (N : Name)
    (h : immutable s N = true) (ops : List Op) :
    immutable (applyAll s ops) N = true :=
  immutable_applyAll s N h ops

/-- Witness for C4: the locked scope survives a concrete attack sequence
that rewrites node 0, deletes node 0, and adds and deletes other nodes. -/
theorem c4_immutability_irreversible_witness :
    immutable (applyAll lockedEx
      [.setOp 1 2 [9], .setOp 1 0 [], .delOp 1 0, .delOp 1 2]) 1 = true :=
  c4_immutability_irreversible lockedEx 1 (by decide)
    [.setOp 1 2 [9], .setOp 1 0 [], .delOp 1 0, .delOp 1 2]

/-- Claim C5: `del` fails with `NotFound` when the node does not exist;
when the node exists and the scope is immutable it fails with
`ImmutableScope`; otherwise it removes exactly the node `(N, i)`, so a
subsequent read of `(N, i)` is not-found and every other row is unchanged. -/
theorem c5_del_behaviour (s : Store) (N : Name) (i : Id) :
    (s N i = none → del s N i = .error .nodeNotFound) ∧
    (s N i ≠ none → immutable s N = true → del s N i = .error .immutableScope) ∧
    (s N i ≠ none → immutable s N = false →
      del s N i = .ok (update s N i none) ∧
      read (update s N i none) N i = none ∧
      ∀ o j, ¬(o = N ∧ j = i) → read (update s N i none) o j = read s o j) := by
  refine ⟨fun hne => by simp [del, hne], ?_, ?_⟩
  · intro hex h
    cases hsi : s N i with
    | none => exact absurd hsi hex
    | some b => simp [del, hsi, h]
  · intro hex h
    cases hsi : s N i with
    | none => exact absurd hsi hex
    | some b =>
      exact ⟨by simp [del, hsi, h], update_self s N i none,
        fun o j hoj => update_other s N i none o j hoj⟩

/-- Witness for C5: all three branches at concrete inputs. -/
theorem c5_del_behaviour_witness :
    del lockedEx 1 7 = .error .nodeNotFound ∧
    del lockedEx 1 0 = .error .immutableScope ∧
    del (update emptyStore 0 1 (some [1, 2, 3])) 0 1 =
      .ok (update (update emptyStore 0 1 (some [1, 2, 3])) 0 1 none) :=
  ⟨(c5_del_behaviour lockedEx 1 7).1 (by decide),
   (c5_del_behaviour lockedEx 1 0).2.1 (by decide) (by decide),
   ((c5_del_behaviour (update emptyStore 0 1 (some [1, 2, 3])) 0 1).2.2
     (by decide) (by decide)).1⟩

/-- Claim C6: a write that is performed (returns success) followed by a
read of the same `(n, i)` returns exactly the written payload, for every
prior store, namespace, id and payload (the empty payload included). -/
theorem c6_write_then_read (s s2 : Store) (n : Name) (i : Id) (p : Bytes)
    (h : set s n i p = .ok s2) : read s2 n i = some p :=
  set_ok_at s s2 n i p h

/-- Witness for C6 at a concrete write. -/
theorem c6_write_then_read_witness :
    read (update emptyStore 0 1 (some [1, 2, 3])) 0 1 = some [1, 2, 3] :=
  c6_write_then_read emptyStore (update emptyStore 0 1 (some [1, 2, 3]))
    0 1 [1, 2, 3] rfl

/-- Claim C7, counterexample: for `i = 0`, `p1 = [222, 173]` (the
sentinel) and `p2 = [0]`, the sequence `write(n, 0, p1); write(n, 0, p2)`
from the empty store leaves `read(n, 0) = p1`, not `p2`: the first write
latches the namespace, so the second is rejected.  This refutes the
universally quantified claim. -/
theorem c7_counterexample :
    read (applyOp (applyOp emptyStore (.setOp 3 0 [222, 173]))
        (.setOp 3 0 [0])) 3 0 ≠ some [0] ∧
    read (applyOp (applyOp emptyStore (.setOp 3 0 [222, 173]))
        (.setOp 3 0 [0])) 3 0 = some [222, 173] :=
  ⟨by decide, by decide⟩

/-- Claim C7 (amended): `write(n, i, p1); write(n, i, p2)` leaves
`read(n, i) = p2` — with the payload fully replaced, never merged —
provided the first write does not leave namespace `n` immutable (from a
fresh store this excludes only `i = 0` with `p1` the sentinel
`[222, 173]`). -/
theorem c7_overwrite_replaces (s : Store) (n : Name) (i : Id) (p1 p2 : Bytes)
    (h : immutable (applyOp s (.setOp n i p1)) n = false) :
    read (applyOp (applyOp s (.setOp n i p1)) (.setOp n i p2)) n i = some p2 := by
  have key : ∀ t : Store, immutable t n = false →
      read (applyOp t (.setOp n i p2)) n i = some p2 := by
    intro t ht
    cases hti : t n i with
    | none => simp [read, applyOp, set, hti, update_self]
    | some b => simp [read, applyOp, set, hti, ht, update_self]
  exact key (applyOp s (.setOp n i p1)) h

/-- Witness for C7 (amended): overwrite with a payload of another length. -/
theorem c7_overwrite_replaces_witness :
    read (applyOp (applyOp emptyStore (.setOp 0 1 [1]))
      (.setOp 0 1 [2, 3])) 0 1 = some [2, 3] :=
  c7_overwrite_replaces emptyStore 0 1 [1] [2, 3] (by decide)

/-- Claim C8: a `set` or `del` that returns an error leaves the whole
store unchanged; in particular a delete rejected with `ImmutableScope`
leaves the read of its target node exactly as before. -/
theorem c8_failed_op_preserves_store (s : Store) (n : Name) (i : Id)
    (d : Bytes) (e : Err) :
    (set s n i d = .error e → applyOp s (.setOp n i d) = s) ∧
    (del s n i = .error e → applyOp s (.delOp n i) = s ∧
      read (applyOp s (.delOp n i)) n i = read s n i) := by
  constructor
  · intro h
    simp [applyOp, h]
  · intro h
    have hs : applyOp s (.delOp n i) = s := by simp [applyOp, h]
    exact ⟨hs, by rw [hs]⟩

/-- Witness for C8 on the concrete locked store. -/
theorem c8_failed_op_preserves_store_witness :
    applyOp lockedEx (.setOp 1 0 [5]) = lockedEx ∧
    applyOp lockedEx (.delOp 1 0) = lockedEx ∧
    read (applyOp lockedEx (.delOp 1 0)) 1 0 = read lockedEx 1 0 := by
  have hc := c8_failed_op_preserves_store lockedEx 1 0 [5] .immutableScope
  exact ⟨hc.1 rfl, (hc.2 rfl).1, (hc.2 rfl).2⟩

/-- Claim C9: namespace isolation — a `set` or `del` on scope `n1` leaves
every row of a different scope `n2` unchanged, and `read` and `immutable`
on `n2` give the same results before and after, even at colliding ids. -/
theorem c9_scope_isolation (s : Store) (n1 n2 : Name) (h : n1 ≠ n2)
    (i j : Id) (d : Bytes) :
    applyOp s (.setOp n1 i d) n2 j = s n2 j ∧
    applyOp s (.delOp n1 i) n2 j = s n2 j ∧
    read (applyOp s (.setOp n1 i d)) n2 j = read s n2 j ∧
    read (applyOp s (.delOp n1 i)) n2 j = read s n2 j ∧
    immutable (applyOp s (.setOp n1 i d)) n2 = immutable s n2 ∧
    immutable (applyOp s (.delOp n1 i)) n2 = immutable s n2 := by
  have hset : ∀ k, applyOp s (.setOp n1 i d) n2 k = s n2 k :=
    fun k => applyOp_other_scope s (.setOp n1 i d) n2 (fun hc => h hc.symm) k
  have hdel : ∀ k, applyOp s (.delOp n1 i) n2 k = s n2 k :=
    fun k => applyOp_other_scope s (.delOp n1 i) n2 (fun hc => h hc.symm) k
  exact ⟨hset j, hdel j, hset j, hdel j,
    immutable_congr s (applyOp s (.setOp n1 i d)) n2 (hset 0),
    immutable_congr s (applyOp s (.delOp n1 i)) n2 (hdel 0)⟩

/-- Witness for C9: writes and deletes on scope 0 (ids colliding with
scope 1's) leave scope 1's rows and immutability as they were. -/
theorem c9_scope_isolation_witness :
    applyOp lockedEx (.setOp 0 0 [7]) 1 0 = lockedEx 1 0 ∧
    immutable (applyOp lockedEx (.setOp 0 0 [7])) 1 = immutable lockedEx 1 ∧
    immutable (applyOp lockedEx (.delOp 0 0)) 1 = immutable lockedEx 1 := by
  have hc := c9_scope_isolation lockedEx 0 1 (by decide) 0 0 [7]
  exact ⟨hc.1, hc.2.2.2.2.1, hc.2.2.2.2.2⟩

/-- Claim C10: in `del` the existence check precedes the immutability
check, so deleting a nonexistent id in an immutable scope fails with the
`Node does not exist.` error, not `Immutable scope.`. -/
theorem c10_notfound_precedence (s : Store) (N : Name) (i : Id)
    (h : immutable s N = true) (hne : s N i = none) :
    del s N i = .error .nodeNotFound := by
  simp [del, hne]

/-- Witness for C10 on the concrete locked store. -/
theorem c10_notfound_precedence_witness :
    del lockedEx 1 9 = .error .nodeNotFound :=
  c10_notfound_precedence lockedEx 1 9 (by decide) (by decide)

end GPPS
